import Mathlib

/-!
Verification of the trador regime-and-decision engine.

Shallow embedding of the core components of the repository:
indicator calculator (`calculateMA`, `calculateSMA`, `calculateRSI`),
regime classifier (`calculateRegime`, `btCalculateRegime`),
strategy policies (`dcaDecide`, `fearGreedConservativeDecide`),
position ledger (`applyBuy`, `applySell`, `liveExecuteSellUpdate`),
and the backtest runner (`simStep`, `simulateStrategy`, `runBacktest`).

JavaScript numbers are modelled as rationals (`ℚ`); nullable numbers as
`Option ℚ`; JS truthiness of a nullable number (`if (x)`) is modelled as
"is `some v` with `v ≠ 0`".  Epoch-millisecond timestamps are rationals.
-/

/-- The last `n` elements of a list, as JS `slice(-n)`: for `n = 0` JS
`slice(-0)` is `slice(0)`, the whole list. -/
def takeLast (l : List ℚ) (n : ℕ) : List ℚ :=
  if n = 0 then l else l.drop (l.length - n)

/-- From `MarketAnalysisService.calculateMA` (marketAnalysis.ts:120-125):
`null` when fewer than `period` bars, else the arithmetic mean of the
last `period` closes.  The source takes OHLCV rows and projects the
close column; we take the close series directly. -/
def calculateMA (closes : List ℚ) (period : ℕ) : Option ℚ :=
  if closes.length < period then none
  else some ((takeLast closes period).sum / period)

/-- From `BacktestService.calculateSMA` (backtestService.ts:727-731):
when fewer than `period` values are given it returns
`values[values.length - 1]` (the last value), else the mean of the last
`period` values.  On an empty list the source yields JS `undefined`; we
return `0` there, an input no caller produces. -/
def calculateSMA (values : List ℚ) (period : ℕ) : ℚ :=
  if values.length < period then values.getLastD 0
  else (takeLast values period).sum / period

/-- Modelled from the spec: "SMA(closes, period): arithmetic mean of the
last `period` closes; requires ≥ `period` bars, else undefined for that
period". -/
def smaSpec (closes : List ℚ) (period : ℕ) : Option ℚ :=
  if period ≤ closes.length then some ((takeLast closes period).sum / period)
  else none

/-- Bar-to-bar changes `closes[i] - closes[i-1]`, as built by the loop in
both `calculateRSI` implementations. -/
def rsiChanges (closes : List ℚ) : List ℚ :=
  (closes.zip closes.tail).map (fun p => p.2 - p.1)

/-- The gains/losses accumulation loop of `calculateRSI`: positive
changes are summed into the first component, absolute values of
non-positive changes into the second. -/
def gainsLosses (changes : List ℚ) : ℚ × ℚ :=
  changes.foldl (fun acc c => if 0 < c then (acc.1 + c, acc.2) else (acc.1, acc.2 + |c|))
    (0, 0)

/-- From `BacktestService.calculateRSI` (backtestService.ts:733-757) and
the identical `MarketAnalysisService.calculateRSI`
(marketAnalysis.ts:130-157): neutral 50 below `period+1` closes, 100
when the average loss over the last `period` changes is zero, else
`100 - 100/(1 + avgGain/avgLoss)`. -/
def calculateRSI (closes : List ℚ) (period : ℕ) : ℚ :=
  if closes.length < period + 1 then 50
  else
    let recentChanges := takeLast (rsiChanges closes) period
    let gl := gainsLosses recentChanges
    let avgGain := gl.1 / period
    let avgLoss := gl.2 / period
    if avgLoss = 0 then 100
    else 100 - 100 / (1 + avgGain / avgLoss)

/-- The discrete market regimes (db `MarketRegime`). -/
inductive MarketRegime where
  | extreme_fear | fear | neutral | greed | extreme_greed
deriving DecidableEq, Repr

/-- Per-strategy regime thresholds (marketAnalysis.ts:37-42). -/
structure RegimeThresholds where
  fearThreshold : ℚ
  extremeFearThreshold : ℚ
  greedRsiThreshold : ℚ
  extremeGreedRsiThreshold : ℚ
deriving DecidableEq, Repr

/-- `DEFAULT_THRESHOLDS` (marketAnalysis.ts:44-49). -/
def defaultThresholds : RegimeThresholds :=
  { fearThreshold := -30, extremeFearThreshold := -50,
    greedRsiThreshold := 70, extremeGreedRsiThreshold := 85 }

/-- The fixed score → regime cascade shared by both classifier
implementations (backtestService.ts:790-795, marketAnalysis.ts:285-297). -/
def regimeOfScore (score : ℤ) : MarketRegime :=
  if score ≤ -50 then .extreme_fear
  else if score ≤ -20 then .fear
  else if 50 ≤ score then .extreme_greed
  else if 20 ≤ score then .greed
  else .neutral

/-- From `MarketAnalysisService.calculateRegime` (marketAnalysis.ts:200-300),
signals elided: the four factor contributions are accumulated into a
signed score and mapped through `regimeOfScore`.  The JS guards
`if (ma200)` and `if (ma50 && ma200)` are truthiness tests, skipping
both `null` and `0`. -/
def calculateRegime (price : ℚ) (ma200 ma50 : Option ℚ) (rsi percentFromAth : ℚ)
    (t : RegimeThresholds) : MarketRegime × ℤ :=
  let s1 : ℤ :=
    if percentFromAth ≤ t.extremeFearThreshold then -40
    else if percentFromAth ≤ t.fearThreshold then -25
    else if -10 ≤ percentFromAth then 20
    else 0
  let s2 : ℤ :=
    if t.extremeGreedRsiThreshold ≤ rsi then 30
    else if t.greedRsiThreshold ≤ rsi then 20
    else if rsi ≤ 30 then -30
    else if rsi ≤ 40 then -15
    else 0
  let s3 : ℤ :=
    match ma200 with
    | none => 0
    | some m =>
      if m = 0 then 0
      else
        let maDeviation := (price - m) / m * 100
        if maDeviation < -20 then -20
        else if maDeviation < 0 then -10
        else if 50 < maDeviation then 20
        else if 20 < maDeviation then 10
        else 0
  let s4 : ℤ :=
    match ma50, ma200 with
    | some f, some m =>
      if f = 0 ∨ m = 0 then 0
      else if m * (105 / 100) < f then 10
      else if f < m * (95 / 100) then -10
      else 0
    | _, _ => 0
  let score := s1 + s2 + s3 + s4
  (regimeOfScore score, score)

/-- From `BacktestService.calculateRegime` (backtestService.ts:759-798):
the same classifier with hard-coded thresholds −50/−30 (ATH) and 85/70
(RSI). -/
def btCalculateRegime (price : ℚ) (ma200 ma50 : Option ℚ) (rsi percentFromAth : ℚ) :
    MarketRegime × ℤ :=
  let s1 : ℤ :=
    if percentFromAth ≤ -50 then -40
    else if percentFromAth ≤ -30 then -25
    else if -10 ≤ percentFromAth then 20
    else 0
  let s2 : ℤ :=
    if 85 ≤ rsi then 30
    else if 70 ≤ rsi then 20
    else if rsi ≤ 30 then -30
    else if rsi ≤ 40 then -15
    else 0
  let s3 : ℤ :=
    match ma200 with
    | none => 0
    | some m =>
      if m = 0 then 0
      else
        let maDeviation := (price - m) / m * 100
        if maDeviation < -20 then -20
        else if maDeviation < 0 then -10
        else if 50 < maDeviation then 20
        else if 20 < maDeviation then 10
        else 0
  let s4 : ℤ :=
    match ma50, ma200 with
    | some f, some m =>
      if f = 0 ∨ m = 0 then 0
      else if m * (105 / 100) < f then 10
      else if f < m * (95 / 100) then -10
      else 0
    | _, _ => 0
  let score := s1 + s2 + s3 + s4
  (regimeOfScore score, score)

/-- Modelled from the spec: ATH-distance factor, "≤ extremeFearThreshold
→ −40; else ≤ fearThreshold → −25; else ≥ −10% → +20; else 0". -/
def athFactor (t : RegimeThresholds) (percentFromAth : ℚ) : ℤ :=
  if percentFromAth ≤ t.extremeFearThreshold then -40
  else if percentFromAth ≤ t.fearThreshold then -25
  else if -10 ≤ percentFromAth then 20
  else 0

/-- Modelled from the spec: RSI factor, "≥ extremeGreedRsiThreshold →
+30; else ≥ greedRsiThreshold → +20; else ≤ 30 → −30; else ≤ 40 → −15;
else 0". -/
def rsiFactor (t : RegimeThresholds) (rsi : ℚ) : ℤ :=
  if t.extremeGreedRsiThreshold ≤ rsi then 30
  else if t.greedRsiThreshold ≤ rsi then 20
  else if rsi ≤ 30 then -30
  else if rsi ≤ 40 then -15
  else 0

/-- Modelled from the spec: 200-MA deviation factor, "< −20 → −20; < 0
→ −10; > 50 → +20; > 20 → +10; else 0; skipped if ma200 undefined". -/
def ma200Factor (price : ℚ) (ma200 : Option ℚ) : ℤ :=
  match ma200 with
  | none => 0
  | some m =>
    let dev := (price - m) / m * 100
    if dev < -20 then -20
    else if dev < 0 then -10
    else if 50 < dev then 20
    else if 20 < dev then 10
    else 0

/-- Modelled from the spec: 50/200 MA cross factor, "ma50 > ma200×1.05 →
+10; ma50 < ma200×0.95 → −10; else 0; skipped if either MA undefined". -/
def crossFactor (ma50 ma200 : Option ℚ) : ℤ :=
  match ma50, ma200 with
  | some f, some m =>
    if m * (105 / 100) < f then 10
    else if f < m * (95 / 100) then -10
    else 0
  | _, _ => 0

/-- `MarketConditions` (strategies/index.ts:17-25). -/
structure MarketConditions where
  price : ℚ
  rsi : ℚ
  ma50 : Option ℚ
  ma200 : Option ℚ
  percentFromAth : ℚ
  regime : MarketRegime
  regimeScore : ℤ
deriving DecidableEq, Repr

/-- `PortfolioState` (strategies/index.ts:27-36); `lastBuyTime` is an
epoch-millisecond timestamp. -/
structure PortfolioState where
  cash : ℚ
  cryptoAmount : ℚ
  cryptoValue : ℚ
  totalValue : ℚ
  costBasis : ℚ
  avgEntryPrice : ℚ
  unrealizedPnlPercent : ℚ
  lastBuyTime : ℚ
deriving DecidableEq, Repr

/-- `TradeDecision.action` values. -/
inductive TradeAction where
  | buy | sell | hold
deriving DecidableEq, Repr

/-- `TradeDecision` (strategies/index.ts:38-42); the optional `amount`
is `0` for `hold`. -/
structure TradeDecision where
  action : TradeAction
  amount : ℚ
  reason : String
deriving DecidableEq, Repr

/-- The strategy parameters of `StrategyConfig.params` that the decide
functions read (strategies/index.ts:51-72). -/
structure StrategyParams where
  maxPositionPercent : ℚ
  minPositionPercent : ℚ
  buyAmountPercent : ℚ
  buyFrequencyHours : ℚ
  sellAmountPercent : ℚ
  minProfitToSell : ℚ
  fearThreshold : ℚ
  extremeFearThreshold : ℚ
  greedRsiThreshold : ℚ
  extremeGreedRsiThreshold : ℚ
deriving DecidableEq, Repr

/-- `dcaStrategy.config.params` (strategies/index.ts:144-155). -/
def dcaParams : StrategyParams :=
  { maxPositionPercent := 100, minPositionPercent := 0,
    buyAmountPercent := 5, buyFrequencyHours := 168,
    sellAmountPercent := 0, minProfitToSell := 999999,
    fearThreshold := -30, extremeFearThreshold := -50,
    greedRsiThreshold := 70, extremeGreedRsiThreshold := 85 }

/-- `fearGreedConservative.config.params` (strategies/index.ts:187-198). -/
def fearGreedConservativeParams : StrategyParams :=
  { maxPositionPercent := 70, minPositionPercent := 0,
    buyAmountPercent := 10, buyFrequencyHours := 72,
    sellAmountPercent := 15, minProfitToSell := 30,
    fearThreshold := -35, extremeFearThreshold := -50,
    greedRsiThreshold := 75, extremeGreedRsiThreshold := 85 }

/-- Milliseconds per hour, the `1000 * 60 * 60` of the decide bodies. -/
def msPerHour : ℚ := 1000 * 60 * 60

/-- From `dcaStrategy.decide` (strategies/index.ts:158-170).  The source
computes `hoursSinceLastBuy` from `Date.now()`; that ambient wall-clock
read is made an explicit `now` input here (epoch milliseconds). -/
def dcaDecide (p : StrategyParams) (now : ℚ) (_market : MarketConditions)
    (portfolio : PortfolioState) : TradeDecision :=
  let hoursSinceLastBuy := (now - portfolio.lastBuyTime) / msPerHour
  let buyAmount := portfolio.totalValue * (p.buyAmountPercent / 100)
  if p.buyFrequencyHours ≤ hoursSinceLastBuy ∧ buyAmount ≤ portfolio.cash then
    { action := .buy, amount := min buyAmount (portfolio.cash * (99 / 100)),
      reason := "Weekly DCA buy" }
  else
    { action := .hold, amount := 0, reason := "Waiting for next DCA period" }

/-- From `fearGreedConservative.interpretRegime` (strategies/index.ts:235-244). -/
def fearGreedConservativeInterpretRegime (p : StrategyParams)
    (market : MarketConditions) : MarketRegime :=
  if market.percentFromAth ≤ p.extremeFearThreshold ∨ market.rsi ≤ 25 then .extreme_fear
  else if market.percentFromAth ≤ p.fearThreshold ∨ market.rsi ≤ 35 then .fear
  else if p.extremeGreedRsiThreshold ≤ market.rsi then .extreme_greed
  else if p.greedRsiThreshold ≤ market.rsi then .greed
  else .neutral

/-- From `fearGreedConservative.decide` (strategies/index.ts:201-233),
with the `Date.now()` read made an explicit `now` input.  Reason strings
abbreviate the source's interpolated messages. -/
def fearGreedConservativeDecide (p : StrategyParams) (now : ℚ)
    (market : MarketConditions) (portfolio : PortfolioState) : TradeDecision :=
  let regime := fearGreedConservativeInterpretRegime p market
  let hoursSinceLastBuy := (now - portfolio.lastBuyTime) / msPerHour
  let positionPercent := portfolio.cryptoValue / portfolio.totalValue * 100
  if regime = .extreme_fear ∧ positionPercent < p.maxPositionPercent ∧
      p.buyFrequencyHours ≤ hoursSinceLastBuy ∧ 100 < portfolio.cash then
    { action := .buy, amount := portfolio.cash * (p.buyAmountPercent / 100),
      reason := "Extreme fear accumulation" }
  else if regime = .extreme_greed ∧ 0 < portfolio.cryptoAmount ∧
      p.minProfitToSell ≤ portfolio.unrealizedPnlPercent then
    { action := .sell, amount := portfolio.cryptoAmount * (p.sellAmountPercent / 100),
      reason := "Extreme greed profit taking" }
  else
    { action := .hold, amount := 0, reason := "Waiting for better opportunity" }

/-- `SimulatedPosition` (backtestService.ts:44-48). -/
structure SimPosition where
  amount : ℚ
  costBasis : ℚ
  avgEntryPrice : ℚ
deriving DecidableEq, Repr

/-- The buy mutation of the backtest ledger (backtestService.ts:511-513):
`amount += fillAmount`, `costBasis += fillCost`,
`avgEntryPrice = costBasis / amount`. -/
def applyBuy (pos : SimPosition) (fillAmount fillCost : ℚ) : SimPosition :=
  let amount := pos.amount + fillAmount
  let costBasis := pos.costBasis + fillCost
  { amount := amount, costBasis := costBasis, avgEntryPrice := costBasis / amount }

/-- The sell mutation of the backtest ledger (backtestService.ts:550-556):
`costBasisPortion = avgEntryPrice × fillAmount`,
`profit = fillProceeds − costBasisPortion − fee`, `amount −= fillAmount`,
`costBasis −= costBasisPortion` (no clamping in this path);
`avgEntryPrice` is untouched.  Returns the new position and the realized
profit of the fill. -/
def applySell (pos : SimPosition) (fillAmount fillProceeds fee : ℚ) :
    SimPosition × ℚ :=
  let costBasisPortion := pos.avgEntryPrice * fillAmount
  let profit := fillProceeds - costBasisPortion - fee
  ({ amount := pos.amount - fillAmount,
     costBasis := pos.costBasis - costBasisPortion,
     avgEntryPrice := pos.avgEntryPrice }, profit)

/-- `DailyData` (backtestService.ts:50-63): a bar enriched with
indicators. -/
structure DailyData where
  timestamp : ℚ
  openPrice : ℚ
  high : ℚ
  low : ℚ
  close : ℚ
  volume : ℚ
  ma200 : Option ℚ
  ma50 : Option ℚ
  rsi : ℚ
  percentFromAth : ℚ
  regime : MarketRegime
  regimeScore : ℤ
deriving DecidableEq, Repr

/-- One executed trade of `simulateStrategy`, keeping the fields the
claims talk about (timestamp, price, filled amount, notional, fee,
realized profit; profit is 0 for buys). -/
structure TradeRec where
  action : TradeAction
  timestamp : ℚ
  price : ℚ
  amount : ℚ
  valueUsd : ℚ
  fee : ℚ
  profit : ℚ
deriving DecidableEq, Repr

/-- The mutable state of the `simulateStrategy` loop
(backtestService.ts:454-464): cash, the simulated position,
`lastBuyTime`, and the accumulated trades and equity curve. -/
structure SimState where
  cash : ℚ
  pos : SimPosition
  lastBuyTime : ℚ
  trades : List TradeRec
  equity : List ℚ
deriving DecidableEq, Repr

/-- `FEE_RATE = 0.001` (backtestService.ts:70). -/
def feeRate : ℚ := 1 / 1000

/-- The buy branch of `simulateStrategy` (backtestService.ts:504-539):
notional capped at `min(decision.amount, cash × 0.99)`, skipped silently
below $10, otherwise ledger updated via `applyBuy`, fee deducted from
cash on top of the notional, `lastBuyTime` set to the bar's timestamp,
and a trade recorded. -/
def tryBuy (st : SimState) (day : DailyData) (decision : TradeDecision) : SimState :=
  let price := day.close
  let buyAmountUsd := min decision.amount (st.cash * (99 / 100))
  if 10 ≤ buyAmountUsd then
    let buyAmountCrypto := buyAmountUsd / price
    let fee := buyAmountUsd * feeRate
    let pos := applyBuy st.pos buyAmountCrypto buyAmountUsd
    { cash := st.cash - (buyAmountUsd + fee),
      pos := pos,
      lastBuyTime := day.timestamp,
      trades := st.trades ++
        [⟨.buy, day.timestamp, price, buyAmountCrypto, buyAmountUsd, fee, 0⟩],
      equity := st.equity }
  else st

/-- The sell branch of `simulateStrategy` (backtestService.ts:540-584):
the fill is capped at the held amount, skipped if that cap is not
positive, otherwise the ledger is updated via `applySell` at a 0.1% fee
of the notional and a trade is recorded. -/
def trySell (st : SimState) (day : DailyData) (decision : TradeDecision) : SimState :=
  let price := day.close
  let sellAmountCrypto := min decision.amount st.pos.amount
  if 0 < sellAmountCrypto then
    let sellValue := sellAmountCrypto * price
    let fee := sellValue * feeRate
    let r := applySell st.pos sellAmountCrypto sellValue fee
    { cash := st.cash + (sellValue - fee),
      pos := r.1,
      lastBuyTime := st.lastBuyTime,
      trades := st.trades ++
        [⟨.sell, day.timestamp, price, sellAmountCrypto, sellValue, fee, r.2⟩],
      equity := st.equity }
  else st

/-- The `MarketConditions` built from a processed bar
(backtestService.ts:471-479). -/
def marketOf (day : DailyData) : MarketConditions :=
  { price := day.close, rsi := day.rsi, ma50 := day.ma50, ma200 := day.ma200,
    percentFromAth := day.percentFromAth, regime := day.regime,
    regimeScore := day.regimeScore }

/-- The `PortfolioState` recomputed from the ledger each bar
(backtestService.ts:482-497). -/
def portfolioOf (st : SimState) (price : ℚ) : PortfolioState :=
  let cryptoValue := st.pos.amount * price
  let totalValue := st.cash + cryptoValue
  let unrealizedPnl := cryptoValue - st.pos.costBasis
  { cash := st.cash, cryptoAmount := st.pos.amount, cryptoValue := cryptoValue,
    totalValue := totalValue, costBasis := st.pos.costBasis,
    avgEntryPrice := st.pos.avgEntryPrice,
    unrealizedPnlPercent :=
      if 0 < st.pos.costBasis then unrealizedPnl / st.pos.costBasis * 100 else 0,
    lastBuyTime := st.lastBuyTime }

/-- One iteration of the `simulateStrategy` loop
(backtestService.ts:466-624), database writes and progress updates
elided: build market and portfolio, ask the strategy, execute the
decision, and append to the equity curve. -/
def simStep (decide : MarketConditions → PortfolioState → TradeDecision)
    (st : SimState) (day : DailyData) : SimState :=
  let decision := decide (marketOf day) (portfolioOf st day.close)
  let st1 :=
    if decision.action = .buy ∧ 0 < decision.amount then tryBuy st day decision
    else if decision.action = .sell ∧ 0 < decision.amount then trySell st day decision
    else st
  { st1 with equity := st1.equity ++ [st1.cash + st1.pos.amount * day.close] }

/-- The initial simulation state (backtestService.ts:454-460). -/
def initSimState (initialCapital : ℚ) : SimState :=
  { cash := initialCapital, pos := { amount := 0, costBasis := 0, avgEntryPrice := 0 },
    lastBuyTime := 0, trades := [], equity := [] }

/-- `simulateStrategy` (backtestService.ts:440-627): fold the step over
the bars from index 200 (`startIndex = 200`) onward. -/
def simulateStrategy (data : List DailyData) (initialCapital : ℚ)
    (decide : MarketConditions → PortfolioState → TradeDecision) : SimState :=
  (data.drop 200).foldl (simStep decide) (initSimState initialCapital)

/-- A raw OHLCV bar (`HistoricalOhlcv` row as consumed by the backtest):
epoch-millisecond timestamp and prices/volume. -/
structure Bar where
  timestamp : ℚ
  openPrice : ℚ
  high : ℚ
  low : ℚ
  close : ℚ
  volume : ℚ
deriving DecidableEq, Repr

/-- `Math.max(...)` over a nonempty list (`0` on the empty list, an
input the pipeline never produces). -/
def listMax : List ℚ → ℚ
  | [] => 0
  | h :: t => t.foldl max h

/-- The body of the `processDataWithIndicators` loop
(backtestService.ts:395-432) at index `i`: MAs over the trailing 200/50
closes once enough bars exist, RSI over the closes so far from index 14
on, the running ATH of the highs seen so far, and the fixed-threshold
regime. -/
def processBar (bars : List Bar) (closes : List ℚ) (i : ℕ) : DailyData :=
  let candle := bars.getD i ⟨0, 0, 0, 0, 0, 0⟩
  let ma200 := if 199 ≤ i then some (calculateSMA ((closes.drop (i - 199)).take 200) 200)
    else none
  let ma50 := if 49 ≤ i then some (calculateSMA ((closes.drop (i - 49)).take 50) 50)
    else none
  let rsi := if 14 ≤ i then calculateRSI (closes.take (i + 1)) 14 else 50
  let currentATH := listMax ((bars.take (i + 1)).map Bar.high)
  let percentFromAth := (candle.close - currentATH) / currentATH * 100
  let rg := btCalculateRegime candle.close ma200 ma50 rsi percentFromAth
  { timestamp := candle.timestamp, openPrice := candle.openPrice,
    high := candle.high, low := candle.low, close := candle.close,
    volume := candle.volume, ma200 := ma200, ma50 := ma50, rsi := rsi,
    percentFromAth := percentFromAth, regime := rg.1, regimeScore := rg.2 }

/-- `processDataWithIndicators` (backtestService.ts:391-435). -/
def processDataWithIndicators (bars : List Bar) : List DailyData :=
  (List.range bars.length).map (processBar bars (bars.map Bar.close))

/-- Backtest run status (db `backtests.status`). -/
inductive RunStatus where
  | running | completed | failed
deriving DecidableEq, Repr

/-- The error a backtest run can fail with in this model: the
"Insufficient data: need at least 201 days for 200-day MA, have N"
throw of backtestService.ts:326-330, carrying `N`. -/
inductive RunError where
  | insufficientData (haveBars : ℕ)
deriving DecidableEq, Repr

/-- The run record as far as the claims observe it: final status and
attached error. -/
structure RunRecord where
  status : RunStatus
  error : Option RunError
deriving DecidableEq, Repr

/-- `runBacktest` (backtestService.ts:281-386), data fetching, metric
computation and persistence elided: fewer than 201 bars throws before
any simulation step and the catch block marks the run failed with the
error attached; otherwise the simulation runs from bar index 200 and
the run completes. -/
def runBacktest (bars : List Bar) (initialCapital : ℚ)
    (decide : MarketConditions → PortfolioState → TradeDecision) :
    RunRecord × List TradeRec × List ℚ :=
  if bars.length < 201 then
    ({ status := .failed, error := some (.insufficientData bars.length) }, [], [])
  else
    let data := processDataWithIndicators bars
    let res := simulateStrategy data initialCapital decide
    ({ status := .completed, error := none }, res.trades, res.equity)

/-- Live position status (db `positions.status`): `opened` is the db
value "open", `part` the db value "partial". -/
inductive PosStatus where
  | opened | part | closed
deriving DecidableEq, Repr

/-- The live `positions` row fields mutated by the trading bot
(exchange.ts `TradingBot`): `totalAmount`, `totalCostUsdt`,
`averageEntryPrice`, `realizedProfitUsdt`, counters and status. -/
structure LivePosition where
  totalAmount : ℚ
  totalCostUsdt : ℚ
  averageEntryPrice : ℚ
  realizedProfitUsdt : ℚ
  totalBuys : ℕ
  totalSells : ℕ
  status : PosStatus
deriving DecidableEq, Repr

/-- The position update of `TradingBot.executeBuy` (exchange.ts:622-639):
`totalAmount += order.amount`, `totalCostUsdt += order.cost` (the fee is
not part of the cost), `averageEntryPrice` recomputed, buy counter
incremented. -/
def liveExecuteBuyUpdate (pos : LivePosition) (orderAmount orderCost : ℚ) :
    LivePosition :=
  let newTotalAmount := pos.totalAmount + orderAmount
  let newTotalCost := pos.totalCostUsdt + orderCost
  { pos with
    totalAmount := newTotalAmount,
    totalCostUsdt := newTotalCost,
    averageEntryPrice := newTotalCost / newTotalAmount,
    totalBuys := pos.totalBuys + 1 }

/-- The position update of `TradingBot.executeSell` (exchange.ts:684-706):
`costBasis = averageEntryPrice × amount`,
`profit = order.cost − costBasis − order.fee`, amount decremented, cost
basis decremented and clamped at 0 (`Math.max(0, newTotalCost)`),
realized profit accumulated, sell counter incremented, status `closed`
when the new amount is ≤ 0 and `partial` otherwise.  Returns the new
position and the realized profit. -/
def liveExecuteSellUpdate (pos : LivePosition) (amount orderCost orderFee : ℚ) :
    LivePosition × ℚ :=
  let costBasis := pos.averageEntryPrice * amount
  let profit := orderCost - costBasis - orderFee
  let newTotalAmount := pos.totalAmount - amount
  let newTotalCost := pos.totalCostUsdt - costBasis
  ({ totalAmount := newTotalAmount,
     totalCostUsdt := max 0 newTotalCost,
     averageEntryPrice := pos.averageEntryPrice,
     realizedProfitUsdt := pos.realizedProfitUsdt + profit,
     totalBuys := pos.totalBuys,
     totalSells := pos.totalSells + 1,
     status := if newTotalAmount ≤ 0 then .closed else .part }, profit)

/-- The live strategy fields read by `handleDistribution`
(db `strategies` row). -/
structure LiveStrategy where
  sellPercentage : ℚ
  minProfitToSell : ℚ
deriving DecidableEq, Repr

/-- The sell sizing of `TradingBot.handleDistribution`
(exchange.ts:593-598): `sellPercentage` boosted ×1.5 during extreme
greed, applied to the held amount. -/
def liveSellSize (s : LiveStrategy) (regime : MarketRegime) (pos : LivePosition) : ℚ :=
  let sellPercentage :=
    if regime = .extreme_greed then s.sellPercentage * (15 / 10) else s.sellPercentage
  pos.totalAmount * (sellPercentage / 100)

/-- `TradingBot.handleDistribution` (exchange.ts:568-607) followed by the
`executeSell` ledger update, for a simulated (test-mode) fill at
`price` with the 0.1% fee of `ExchangeService.simulateOrder`: skip when
no position is held or unrealized P&L is below `minProfitToSell`, else
sell `liveSellSize` of the position. -/
def handleDistributionStep (s : LiveStrategy) (regime : MarketRegime) (price : ℚ)
    (pos : LivePosition) : LivePosition :=
  let currentValue := pos.totalAmount * price
  let unrealizedPnl := currentValue - pos.totalCostUsdt
  let unrealizedPnlPercent :=
    if 0 < pos.totalCostUsdt then unrealizedPnl / pos.totalCostUsdt * 100 else 0
  if pos.totalAmount ≤ 0 then pos
  else if unrealizedPnlPercent < s.minProfitToSell then pos
  else
    let sellAmount := liveSellSize s regime pos
    let orderCost := sellAmount * price
    let orderFee := orderCost * feeRate
    (liveExecuteSellUpdate pos sellAmount orderCost orderFee).1

/-- A strategy that always holds, for exercising the runner. -/
def holdDecide : MarketConditions → PortfolioState → TradeDecision :=
  fun _ _ => { action := .hold, amount := 0, reason := "hold" }

/-- A flat $100 bar. -/
def flatBar : Bar :=
  { timestamp := 0, openPrice := 100, high := 100, low := 100, close := 100, volume := 0 }

/-- A processed bar at price $50,000 (spec scenario C). -/
def scenarioCDay : DailyData :=
  { timestamp := 0, openPrice := 50000, high := 50000, low := 50000, close := 50000,
    volume := 0, ma200 := none, ma50 := none, rsi := 50, percentFromAth := 0,
    regime := .neutral, regimeScore := 0 }

/-- The ledger invariant maintained by the backtest simulation: amount,
cost basis and average entry price are nonnegative and the cost basis is
exactly `avgEntryPrice × amount`. -/
def SimInv (st : SimState) : Prop :=
  0 ≤ st.pos.amount ∧ 0 ≤ st.pos.costBasis ∧ 0 ≤ st.pos.avgEntryPrice ∧
    st.pos.costBasis = st.pos.avgEntryPrice * st.pos.amount

theorem takeLast_eq_drop (l : List ℚ) (n : ℕ) (h : n ≠ 0) :
    takeLast l n = l.drop (l.length - n) := by
  simp [takeLast, h]

/-- C7. AMENDED: the live `calculateMA` agrees with the spec's SMA
everywhere (undefined below `period` bars, the mean of the last `period`
closes otherwise); the backtest `calculateSMA` agrees with the spec's
SMA whenever at least `period` values are supplied, but on fewer than
`period` values it returns the last value instead of reporting
insufficient data. -/
theorem C7_sma_amended (closes : List ℚ) (period : ℕ) :
    calculateMA closes period = smaSpec closes period ∧
    (period ≤ closes.length → some (calculateSMA closes period) = smaSpec closes period) ∧
    (closes.length < period → calculateSMA closes period = closes.getLastD 0) := by
  refine ⟨?_, ?_, ?_⟩
  · unfold calculateMA smaSpec
    rcases lt_or_ge closes.length period with h | h
    · rw [if_pos h, if_neg (by omega)]
    · rw [if_neg (by omega), if_pos h]
  · intro h
    unfold calculateSMA smaSpec
    rw [if_neg (by omega), if_pos h]
  · intro h
    unfold calculateSMA
    rw [if_pos h]

/-- C7 witness: on three closes with period 2 both SMA implementations
yield the mean of the last two closes. -/
theorem C7_sma_amended_witness :
    2 ≤ ([1, 2, 3] : List ℚ).length ∧
      some (calculateSMA [1, 2, 3] 2) = smaSpec [1, 2, 3] 2 := by
  exact ⟨by decide, (C7_sma_amended [1, 2, 3] 2).2.1 (by decide)⟩

/-- C7 counterexample: on two closes with period 3 the spec's SMA is
undefined (insufficient data) but the backtest `calculateSMA` returns
the numeric last close 200. -/
theorem C7_counterexample :
    smaSpec [100, 200] 3 = none ∧ calculateSMA [100, 200] 3 = 200 := by
  constructor <;> decide

theorem btCalculateRegime_eq_default (price rsi pfa : ℚ) (ma200 ma50 : Option ℚ) :
    btCalculateRegime price ma200 ma50 rsi pfa =
      calculateRegime price ma200 ma50 rsi pfa defaultThresholds := rfl

theorem calculateRegime_decomp (price rsi pfa : ℚ) (ma200 ma50 : Option ℚ)
    (t : RegimeThresholds)
    (h200 : ∀ m, ma200 = some m → 0 < m) (h50 : ∀ f, ma50 = some f → 0 < f) :
    (calculateRegime price ma200 ma50 rsi pfa t).2 =
      athFactor t pfa + rsiFactor t rsi + ma200Factor price ma200 +
        crossFactor ma50 ma200 := by
  unfold calculateRegime athFactor rsiFactor ma200Factor crossFactor
  rcases ma200 with _ | m <;> rcases ma50 with _ | f
  · rfl
  · rfl
  · have hm := h200 m rfl
    simp [hm.ne']
  · have hm := h200 m rfl
    have hf := h50 f rfl
    simp [hm.ne', hf.ne']

/-- C2: the composite regime score is the sum of the four factor
contributions (ATH distance −40/−25/+20/0, RSI +30/+20/−30/−15/0,
200-MA deviation −20/−10/+20/+10/0 skipped when ma200 is undefined,
50/200 MA cross +10/−10/0 skipped when either MA is undefined), every
score is mapped to a regime by the fixed breakpoints of
`regimeOfScore`, the backtest classifier is the parametric classifier
at the default thresholds, and for percentFromAth = −50, RSI = 25, a
200-MA deviation of −25% and an active death cross the score is −100
and the regime is extreme_fear. -/
theorem C2_regime_score (price rsi pfa : ℚ) (ma200 ma50 : Option ℚ)
    (t : RegimeThresholds)
    (h200 : ∀ m, ma200 = some m → 0 < m) (h50 : ∀ f, ma50 = some f → 0 < f) :
    (calculateRegime price ma200 ma50 rsi pfa t).2 =
      athFactor t pfa + rsiFactor t rsi + ma200Factor price ma200 +
        crossFactor ma50 ma200 ∧
    (calculateRegime price ma200 ma50 rsi pfa t).1 =
      regimeOfScore (calculateRegime price ma200 ma50 rsi pfa t).2 ∧
    btCalculateRegime price ma200 ma50 rsi pfa =
      calculateRegime price ma200 ma50 rsi pfa defaultThresholds ∧
    btCalculateRegime 30000 (some 40000) (some 30000) 25 (-50) =
      (.extreme_fear, -100) :=
  ⟨calculateRegime_decomp price rsi pfa ma200 ma50 t h200 h50, rfl,
    btCalculateRegime_eq_default price rsi pfa ma200 ma50, by
      unfold btCalculateRegime
      simp only []
      norm_num [regimeOfScore]⟩

/-- C2 witness: the factor decomposition instantiated at spec
scenario B (price 30,000, ma200 40,000, ma50 30,000, RSI 25,
percentFromAth −50). -/
theorem C2_regime_score_witness :
    (calculateRegime 30000 (some 40000) (some 30000) 25 (-50) defaultThresholds).2 =
      athFactor defaultThresholds (-50) + rsiFactor defaultThresholds 25 +
        ma200Factor 30000 (some 40000) + crossFactor (some 30000) (some 40000) :=
  (C2_regime_score 30000 25 (-50) (some 40000) (some 30000) defaultThresholds
    (by intro m hm; cases hm; norm_num) (by intro f hf; cases hf; norm_num)).1

theorem gainsLosses_foldl_nonneg (l : List ℚ) (a b : ℚ) (ha : 0 ≤ a) (hb : 0 ≤ b) :
    0 ≤ (l.foldl
        (fun acc c => if 0 < c then (acc.1 + c, acc.2) else (acc.1, acc.2 + |c|))
        (a, b)).1 ∧
    0 ≤ (l.foldl
        (fun acc c => if 0 < c then (acc.1 + c, acc.2) else (acc.1, acc.2 + |c|))
        (a, b)).2 := by
  induction l generalizing a b with
  | nil => exact ⟨ha, hb⟩
  | cons c t ih =>
    simp only [List.foldl_cons]
    by_cases h : 0 < c
    · rw [if_pos h]
      exact ih (a + c) b (by linarith) hb
    · rw [if_neg h]
      exact ih a (b + |c|) ha (by positivity)

theorem gainsLosses_nonneg (l : List ℚ) :
    0 ≤ (gainsLosses l).1 ∧ 0 ≤ (gainsLosses l).2 :=
  gainsLosses_foldl_nonneg l 0 0 le_rfl le_rfl

theorem calculateRSI_range (closes : List ℚ) (period : ℕ) :
    0 ≤ calculateRSI closes period ∧ calculateRSI closes period ≤ 100 := by
  unfold calculateRSI
  split
  · norm_num
  · simp only []
    split
    · norm_num
    · rename_i hL
      have hg := (gainsLosses_nonneg (takeLast (rsiChanges closes) period)).1
      have hl := (gainsLosses_nonneg (takeLast (rsiChanges closes) period)).2
      set g := (gainsLosses (takeLast (rsiChanges closes) period)).1 with hgdef
      set lo := (gainsLosses (takeLast (rsiChanges closes) period)).2 with hldef
      have hLnn : (0:ℚ) ≤ lo / (period : ℚ) :=
        div_nonneg hl (by positivity)
      have hLpos : (0:ℚ) < lo / (period : ℚ) := lt_of_le_of_ne hLnn (Ne.symm hL)
      have hGnn : (0:ℚ) ≤ g / (period : ℚ) := div_nonneg hg (by positivity)
      have hrs : (0:ℚ) ≤ g / (period : ℚ) / (lo / (period : ℚ)) :=
        div_nonneg hGnn hLpos.le
      have h1 : (0:ℚ) < 1 + g / (period : ℚ) / (lo / (period : ℚ)) := by linarith
      have hdivnn : (0:ℚ) ≤ 100 / (1 + g / (period : ℚ) / (lo / (period : ℚ))) :=
        div_nonneg (by norm_num) h1.le
      have hdivle : 100 / (1 + g / (period : ℚ) / (lo / (period : ℚ))) ≤ 100 := by
        rw [div_le_iff₀ h1]
        nlinarith
      constructor <;> linarith

theorem rsiChanges_replicate (n : ℕ) (c : ℚ) :
    rsiChanges (List.replicate n c) = List.replicate (n - 1) 0 := by
  induction n with
  | zero => rfl
  | succ m ih =>
    cases m with
    | zero => rfl
    | succ k =>
      have ih' : rsiChanges (c :: List.replicate k c) = List.replicate k 0 := by
        simpa [List.replicate_succ] using ih
      show rsiChanges (c :: c :: List.replicate k c) = List.replicate (k + 1) 0
      simp only [rsiChanges, List.tail_cons, List.zip_cons_cons, List.map_cons] at ih' ⊢
      simp [List.replicate_succ, ih', sub_self]

theorem gainsLosses_replicate_zero (m : ℕ) :
    gainsLosses (List.replicate m 0) = (0, 0) := by
  induction m with
  | zero => rfl
  | succ k ih =>
    simp only [gainsLosses, List.replicate_succ, List.foldl_cons] at ih ⊢
    simpa using ih

theorem calculateRSI_flat (c : ℚ) (n : ℕ) (h : 15 ≤ n) :
    calculateRSI (List.replicate n c) 14 = 100 := by
  unfold calculateRSI
  rw [if_neg (by simp; omega)]
  simp only []
  rw [if_pos]
  rw [rsiChanges_replicate, takeLast, if_neg (by norm_num), List.length_replicate,
    List.drop_replicate, gainsLosses_replicate_zero]
  norm_num

/-- C3: RSI at period 14 returns 50 on fewer than 15 closes; otherwise,
with gains/losses summed over the last 14 bar-to-bar changes, it returns
100 when the loss sum is 0 (in particular on a perfectly flat series)
and `100 − 100/(1 + avgGain/avgLoss)` otherwise; and the result always
lies in [0, 100]. -/
theorem C3_rsi (closes : List ℚ) :
    (closes.length < 15 → calculateRSI closes 14 = 50) ∧
    (15 ≤ closes.length →
      ((gainsLosses (takeLast (rsiChanges closes) 14)).2 = 0 →
        calculateRSI closes 14 = 100) ∧
      ((gainsLosses (takeLast (rsiChanges closes) 14)).2 ≠ 0 →
        calculateRSI closes 14 =
          100 - 100 / (1 + ((gainsLosses (takeLast (rsiChanges closes) 14)).1 / 14) /
            ((gainsLosses (takeLast (rsiChanges closes) 14)).2 / 14)))) ∧
    (∀ (c : ℚ) (n : ℕ), 15 ≤ n → calculateRSI (List.replicate n c) 14 = 100) ∧
    0 ≤ calculateRSI closes 14 ∧ calculateRSI closes 14 ≤ 100 := by
  refine ⟨?_, ?_, calculateRSI_flat, (calculateRSI_range closes 14).1,
    (calculateRSI_range closes 14).2⟩
  · intro h
    unfold calculateRSI
    rw [if_pos (by omega)]
  · intro h
    constructor
    · intro hz
      unfold calculateRSI
      rw [if_neg (by omega)]
      simp only []
      rw [if_pos (by rw [hz]; norm_num)]
    · intro hz
      unfold calculateRSI
      rw [if_neg (by omega)]
      simp only []
      rw [if_neg (by
        intro hdiv
        exact hz (by
          have h14 : ((14:ℕ):ℚ) ≠ 0 := by norm_num
          field_simp at hdiv
          exact hdiv))]
      norm_num

/-- C3 witness: a flat 20-close series yields RSI 100, and a falling
35-length tail below 15 closes yields the neutral default 50. -/
theorem C3_rsi_witness :
    (15 ≤ 20 ∧ calculateRSI (List.replicate 20 (7:ℚ)) 14 = 100) ∧
    (([(1:ℚ), 2, 3] : List ℚ).length < 15 ∧ calculateRSI [(1:ℚ), 2, 3] 14 = 50) :=
  ⟨⟨by norm_num, (C3_rsi (List.replicate 20 (7:ℚ))).2.2.1 7 20 (by norm_num)⟩,
    ⟨by norm_num, (C3_rsi [(1:ℚ), 2, 3]).1 (by norm_num)⟩⟩

/-- C1: `decide` is NOT a pure function of market, portfolio and config:
the source computes "time since last buy" from the ambient wall clock
(`Date.now()`), modelled by the explicit `now` input.  With identical
market conditions, portfolio state (`lastBuyTime = 0`) and config, the
DCA strategy returns hold at wall-clock time 0 and buy at wall-clock
time 168 h, and the conservative fear/greed strategy returns hold at
wall-clock time 0 and buy at wall-clock time 72 h. -/
theorem C1_decide_reads_wall_clock :
    (dcaDecide dcaParams 0 ⟨100, 50, none, none, 0, .neutral, 0⟩
      ⟨1000, 0, 0, 1000, 0, 0, 0, 0⟩).action = .hold ∧
    (dcaDecide dcaParams (168 * msPerHour) ⟨100, 50, none, none, 0, .neutral, 0⟩
      ⟨1000, 0, 0, 1000, 0, 0, 0, 0⟩).action = .buy ∧
    dcaDecide dcaParams 0 ⟨100, 50, none, none, 0, .neutral, 0⟩
        ⟨1000, 0, 0, 1000, 0, 0, 0, 0⟩ ≠
      dcaDecide dcaParams (168 * msPerHour) ⟨100, 50, none, none, 0, .neutral, 0⟩
        ⟨1000, 0, 0, 1000, 0, 0, 0, 0⟩ ∧
    (fearGreedConservativeDecide fearGreedConservativeParams 0
      ⟨100, 50, none, none, -60, .extreme_fear, -60⟩
      ⟨1000, 0, 0, 1000, 0, 0, 0, 0⟩).action = .hold ∧
    (fearGreedConservativeDecide fearGreedConservativeParams (72 * msPerHour)
      ⟨100, 50, none, none, -60, .extreme_fear, -60⟩
      ⟨1000, 0, 0, 1000, 0, 0, 0, 0⟩).action = .buy := by
  have h1 : (dcaDecide dcaParams 0 ⟨100, 50, none, none, 0, .neutral, 0⟩
      ⟨1000, 0, 0, 1000, 0, 0, 0, 0⟩).action = .hold := by
    norm_num [dcaDecide, dcaParams, msPerHour]
  have h2 : (dcaDecide dcaParams (168 * msPerHour) ⟨100, 50, none, none, 0, .neutral, 0⟩
      ⟨1000, 0, 0, 1000, 0, 0, 0, 0⟩).action = .buy := by
    norm_num [dcaDecide, dcaParams, msPerHour]
  refine ⟨h1, h2, ?_, ?_, ?_⟩
  · intro he
    rw [he, h2] at h1
    exact absurd h1 (by decide)
  · norm_num [fearGreedConservativeDecide, fearGreedConservativeInterpretRegime,
      fearGreedConservativeParams, msPerHour]
  · norm_num [fearGreedConservativeDecide, fearGreedConservativeInterpretRegime,
      fearGreedConservativeParams, msPerHour]

/-- C4: Apply-Sell on a live position realizes
`profit = fillProceeds − avgEntryPrice × fillAmount − fee`, decreases the
amount by `fillAmount`, decreases the cost basis by the cost-basis
portion clamped at 0 (never negative), accumulates the profit into
`realizedProfitUsdt`, and sets the status to closed exactly when the
amount reaches 0 and to partial otherwise. -/
theorem C4_apply_sell (pos : LivePosition) (fillAmount fillProceeds fee : ℚ)
    (h0 : 0 ≤ fillAmount) (hle : fillAmount ≤ pos.totalAmount) :
    (liveExecuteSellUpdate pos fillAmount fillProceeds fee).2 =
      fillProceeds - pos.averageEntryPrice * fillAmount - fee ∧
    (liveExecuteSellUpdate pos fillAmount fillProceeds fee).1.totalAmount =
      pos.totalAmount - fillAmount ∧
    (liveExecuteSellUpdate pos fillAmount fillProceeds fee).1.totalCostUsdt =
      max 0 (pos.totalCostUsdt - pos.averageEntryPrice * fillAmount) ∧
    0 ≤ (liveExecuteSellUpdate pos fillAmount fillProceeds fee).1.totalCostUsdt ∧
    (liveExecuteSellUpdate pos fillAmount fillProceeds fee).1.realizedProfitUsdt =
      pos.realizedProfitUsdt +
        (liveExecuteSellUpdate pos fillAmount fillProceeds fee).2 ∧
    (liveExecuteSellUpdate pos fillAmount fillProceeds fee).1.status =
      (if pos.totalAmount - fillAmount = 0 then PosStatus.closed else PosStatus.part) := by
  refine ⟨rfl, rfl, rfl, le_max_left _ _, rfl, ?_⟩
  show (if pos.totalAmount - fillAmount ≤ 0 then PosStatus.closed else PosStatus.part) =
    (if pos.totalAmount - fillAmount = 0 then PosStatus.closed else PosStatus.part)
  by_cases h : pos.totalAmount - fillAmount = 0
  · rw [if_pos h, if_pos (le_of_eq h)]
  · rw [if_neg h, if_neg (fun hle0 => h (le_antisymm hle0 (by linarith)))]

/-- C4 witness: selling 1 of 2 units held at average entry 100 for
proceeds 150 with fee 1 realizes profit 49, leaves cost basis 100
(clamped max with 0), and marks the position partial. -/
theorem C4_apply_sell_witness :
    0 ≤ (1:ℚ) ∧ (1:ℚ) ≤ 2 ∧
    (liveExecuteSellUpdate ⟨2, 200, 100, 0, 1, 0, .opened⟩ 1 150 1).2 = 49 ∧
    (liveExecuteSellUpdate ⟨2, 200, 100, 0, 1, 0, .opened⟩ 1 150 1).1.totalCostUsdt = 100 ∧
    (liveExecuteSellUpdate ⟨2, 200, 100, 0, 1, 0, .opened⟩ 1 150 1).1.status = .part := by
  have h := C4_apply_sell ⟨2, 200, 100, 0, 1, 0, .opened⟩ 1 150 1 (by norm_num) (by norm_num)
  refine ⟨by norm_num, by norm_num, ?_, ?_, ?_⟩
  · rw [h.1]; norm_num
  · rw [h.2.2.1]; norm_num
  · rw [h.2.2.2.2.2]; norm_num

/-- C5 counterexample: on a pre-existing position of 1 unit with cost
basis 100, buying 1 unit at price 200 and immediately selling 1 unit at
price 200 with zero fee realizes profit 50 ≠ 0 and leaves cost basis
150 ≠ 100, so the round-trip law does not hold for every ledger
state. -/
theorem C5_counterexample :
    (applySell (applyBuy ⟨1, 100, 100⟩ 1 (1 * 200)) 1 (1 * 200) 0).2 = 50 ∧
    ((50:ℚ) ≠ 0) ∧
    (applySell (applyBuy ⟨1, 100, 100⟩ 1 (1 * 200)) 1 (1 * 200) 0).1.costBasis = 150 ∧
    ((150:ℚ) ≠ 100) := by
  norm_num [applyBuy, applySell]

/-- C5. AMENDED: the round-trip law holds for every ledger state whose
cost basis equals `price × amount` — in particular the empty ledger —
at the trade price: a buy of `a` units at `price` immediately followed
by a sell of `a` units at `price` with zero fee realizes profit 0 and
restores `amount` and `costBasis` to their pre-buy values. -/
theorem C5_round_trip_amended (pos : SimPosition) (a price : ℚ)
    (ha : 0 < a) (hamt : 0 ≤ pos.amount) (hcb : pos.costBasis = price * pos.amount) :
    (applySell (applyBuy pos a (a * price)) a (a * price) 0).2 = 0 ∧
    (applySell (applyBuy pos a (a * price)) a (a * price) 0).1.amount = pos.amount ∧
    (applySell (applyBuy pos a (a * price)) a (a * price) 0).1.costBasis =
      pos.costBasis := by
  have hpos : 0 < pos.amount + a := by linarith
  have hne : pos.amount + a ≠ 0 := hpos.ne'
  unfold applyBuy applySell
  simp only []
  have havg : (pos.costBasis + a * price) / (pos.amount + a) = price := by
    rw [hcb]
    field_simp
    ring
  refine ⟨?_, by ring, ?_⟩
  · rw [havg]; ring
  · rw [havg]; ring

/-- C5 witness: the amended round-trip law at the empty ledger, buying
and selling 1 unit at price 100 with zero fee. -/
theorem C5_round_trip_witness :
    0 < (1:ℚ) ∧
    (applySell (applyBuy ⟨0, 0, 0⟩ 1 (1 * 100)) 1 (1 * 100) 0).2 = 0 :=
  ⟨by norm_num,
    (C5_round_trip_amended ⟨0, 0, 0⟩ 1 100 (by norm_num) (by norm_num) (by norm_num)).1⟩

/-- C8: Apply-Buy in the backtest increases the amount by the fill
`usd/price`, increases the cost basis by exactly the notional (the
0.1% fee is excluded from cost basis and deducted from cash only),
recomputes `avgEntryPrice = costBasis/amount`; concretely, buying $100
at price $50,000 yields fill amount 0.002, fee $0.1, cost basis
increased by $100 and cash decreased by $100.10. -/
theorem C8_apply_buy (st : SimState) (day : DailyData) (decision : TradeDecision)
    (h : 10 ≤ min decision.amount (st.cash * (99 / 100))) :
    (tryBuy st day decision).pos.amount =
      st.pos.amount + min decision.amount (st.cash * (99 / 100)) / day.close ∧
    (tryBuy st day decision).pos.costBasis =
      st.pos.costBasis + min decision.amount (st.cash * (99 / 100)) ∧
    (tryBuy st day decision).pos.avgEntryPrice =
      (tryBuy st day decision).pos.costBasis / (tryBuy st day decision).pos.amount ∧
    (tryBuy st day decision).cash =
      st.cash - (min decision.amount (st.cash * (99 / 100)) +
        min decision.amount (st.cash * (99 / 100)) * feeRate) ∧
    (tryBuy st day decision).trades.map TradeRec.fee =
      st.trades.map TradeRec.fee ++
        [min decision.amount (st.cash * (99 / 100)) * feeRate] ∧
    (tryBuy (initSimState 1000) scenarioCDay ⟨.buy, 100, "buy"⟩).pos.amount = 1 / 500 ∧
    (tryBuy (initSimState 1000) scenarioCDay ⟨.buy, 100, "buy"⟩).pos.costBasis = 100 ∧
    (tryBuy (initSimState 1000) scenarioCDay ⟨.buy, 100, "buy"⟩).cash = 8999 / 10 ∧
    (tryBuy (initSimState 1000) scenarioCDay
      ⟨.buy, 100, "buy"⟩).trades.map TradeRec.fee = [1 / 10] := by
  unfold tryBuy
  rw [if_pos h]
  refine ⟨rfl, rfl, rfl, rfl, by simp [applyBuy], ?_, ?_, ?_, ?_⟩ <;>
    norm_num [tryBuy, applyBuy, initSimState, scenarioCDay, feeRate, min_def]

/-- C8 witness: the Apply-Buy theorem instantiated at spec scenario C. -/
theorem C8_apply_buy_witness :
    10 ≤ min (100:ℚ) ((1000:ℚ) * (99 / 100)) ∧
    (tryBuy (initSimState 1000) scenarioCDay ⟨.buy, 100, "buy"⟩).pos.costBasis = 100 :=
  ⟨by norm_num,
    (C8_apply_buy (initSimState 1000) scenarioCDay ⟨.buy, 100, "buy"⟩
      (by norm_num [initSimState])).2.2.2.2.2.2.1⟩

/-- C10: for every buy decision in the backtest runner the executed
notional is `min(decision.amount, 0.99 × cash)`; if that capped
notional is below $10 the buy is silently skipped — the state (cash,
position, lastBuyTime, trades) is returned unchanged — and otherwise a
trade with exactly that notional is recorded and `lastBuyTime` is set
to the bar timestamp. -/
theorem C10_min_trade_cutoff (st : SimState) (day : DailyData) (decision : TradeDecision) :
    (min decision.amount (st.cash * (99 / 100)) < 10 → tryBuy st day decision = st) ∧
    (10 ≤ min decision.amount (st.cash * (99 / 100)) →
      (tryBuy st day decision).trades =
        st.trades ++ [⟨.buy, day.timestamp, day.close,
          min decision.amount (st.cash * (99 / 100)) / day.close,
          min decision.amount (st.cash * (99 / 100)),
          min decision.amount (st.cash * (99 / 100)) * feeRate, 0⟩] ∧
      (tryBuy st day decision).lastBuyTime = day.timestamp) := by
  constructor
  · intro h
    unfold tryBuy
    rw [if_neg (not_le.mpr h)]
  · intro h
    unfold tryBuy
    rw [if_pos h]
    exact ⟨rfl, rfl⟩

/-- C10 witness: with $5 cash a $100 buy decision caps at $4.95 < $10
and the step leaves the state untouched. -/
theorem C10_min_trade_cutoff_witness :
    min (100:ℚ) ((5:ℚ) * (99 / 100)) < 10 ∧
    tryBuy (initSimState 5) scenarioCDay ⟨.buy, 100, "x"⟩ = initSimState 5 :=
  ⟨by norm_num,
    (C10_min_trade_cutoff (initSimState 5) scenarioCDay ⟨.buy, 100, "x"⟩).1
      (by norm_num [initSimState])⟩

theorem tryBuy_equity (st : SimState) (day : DailyData) (d : TradeDecision) :
    (tryBuy st day d).equity = st.equity := by
  unfold tryBuy
  simp only []
  split <;> rfl

theorem trySell_equity (st : SimState) (day : DailyData) (d : TradeDecision) :
    (trySell st day d).equity = st.equity := by
  unfold trySell
  simp only []
  split <;> rfl

theorem simStep_equity_len (decide : MarketConditions → PortfolioState → TradeDecision)
    (st : SimState) (day : DailyData) :
    (simStep decide st day).equity.length = st.equity.length + 1 := by
  unfold simStep
  simp only []
  split_ifs with h1 h2 <;> simp [tryBuy_equity, trySell_equity]

theorem foldl_simStep_equity_len
    (decide : MarketConditions → PortfolioState → TradeDecision)
    (l : List DailyData) (st : SimState) :
    ((l.foldl (simStep decide) st).equity).length = st.equity.length + l.length := by
  induction l generalizing st with
  | nil => simp
  | cons d t ih =>
    simp only [List.foldl_cons, List.length_cons]
    rw [ih, simStep_equity_len]
    omega

/-- C6: a backtest over fewer than 201 bars fails with the
insufficient-data error carrying the bar count before any simulation
step (zero trades), putting the run record in the failed status with
the error attached; with 201 or more bars the run completes and the
simulation starts at bar index 200 (the equity curve has exactly
`bars − 200` points, one per simulated bar). -/
theorem C6_insufficient_data (bars : List Bar) (cap : ℚ)
    (decide : MarketConditions → PortfolioState → TradeDecision) :
    (bars.length < 201 →
      (runBacktest bars cap decide).1.status = .failed ∧
      (runBacktest bars cap decide).1.error = some (.insufficientData bars.length) ∧
      (runBacktest bars cap decide).2.1 = []) ∧
    (201 ≤ bars.length →
      (runBacktest bars cap decide).1.status = .completed ∧
      (runBacktest bars cap decide).1.error = none ∧
      (runBacktest bars cap decide).2.2.length = bars.length - 200) := by
  constructor
  · intro h
    unfold runBacktest
    rw [if_pos h]
    exact ⟨rfl, rfl, rfl⟩
  · intro h
    unfold runBacktest
    rw [if_neg (by omega)]
    refine ⟨rfl, rfl, ?_⟩
    show (simulateStrategy (processDataWithIndicators bars) cap decide).equity.length = _
    unfold simulateStrategy
    rw [foldl_simStep_equity_len]
    simp [initSimState, processDataWithIndicators]

/-- C6 witness: exactly 200 flat bars fail with the insufficient-data
error and zero trades; 201 flat bars complete with a one-point equity
curve. -/
theorem C6_insufficient_data_witness :
    ((runBacktest (List.replicate 200 flatBar) 1000 holdDecide).1.status = .failed ∧
     (runBacktest (List.replicate 200 flatBar) 1000 holdDecide).1.error =
       some (.insufficientData 200) ∧
     (runBacktest (List.replicate 200 flatBar) 1000 holdDecide).2.1 = []) ∧
    ((runBacktest (List.replicate 201 flatBar) 1000 holdDecide).1.status = .completed ∧
     (runBacktest (List.replicate 201 flatBar) 1000 holdDecide).2.2.length = 1) := by
  have h1 := (C6_insufficient_data (List.replicate 200 flatBar) 1000 holdDecide).1
    (by rw [List.length_replicate]; norm_num)
  have h2 := (C6_insufficient_data (List.replicate 201 flatBar) 1000 holdDecide).2
    (by rw [List.length_replicate])
  refine ⟨⟨h1.1, ?_, h1.2.2⟩, h2.1, ?_⟩
  · have h3 := h1.2.1
    rw [List.length_replicate] at h3
    exact h3
  · have h3 := h2.2.2
    rw [List.length_replicate] at h3
    norm_num at h3
    exact h3

theorem tryBuy_inv (st : SimState) (day : DailyData) (d : TradeDecision)
    (hc : 0 < day.close) (h : SimInv st) : SimInv (tryBuy st day d) := by
  unfold SimInv at *
  obtain ⟨h1, h2, h3, h4⟩ := h
  unfold tryBuy
  simp only []
  split_ifs with hge
  · dsimp only [applyBuy]
    have husd : (0:ℚ) < min d.amount (st.cash * (99 / 100)) := by linarith
    have hcr : 0 < min d.amount (st.cash * (99 / 100)) / day.close := div_pos husd hc
    have hamt : 0 < st.pos.amount + min d.amount (st.cash * (99 / 100)) / day.close := by
      linarith
    refine ⟨by linarith, by linarith, ?_, ?_⟩
    · exact div_nonneg (by linarith) hamt.le
    · exact (div_mul_cancel₀ _ hamt.ne').symm
  · exact ⟨h1, h2, h3, h4⟩

theorem trySell_inv (st : SimState) (day : DailyData) (d : TradeDecision)
    (h : SimInv st) : SimInv (trySell st day d) := by
  unfold SimInv at *
  obtain ⟨h1, h2, h3, h4⟩ := h
  unfold trySell applySell
  simp only []
  split_ifs with hs
  · dsimp only
    have hmin : min d.amount st.pos.amount ≤ st.pos.amount := min_le_right _ _
    have hmul : st.pos.avgEntryPrice * min d.amount st.pos.amount ≤
        st.pos.avgEntryPrice * st.pos.amount :=
      mul_le_mul_of_nonneg_left hmin h3
    refine ⟨by linarith, ?_, h3, ?_⟩
    · rw [h4]
      linarith
    · rw [h4]
      ring
  · exact ⟨h1, h2, h3, h4⟩

theorem simStep_inv (decide : MarketConditions → PortfolioState → TradeDecision)
    (st : SimState) (day : DailyData) (hc : 0 < day.close) (h : SimInv st) :
    SimInv (simStep decide st day) := by
  unfold simStep
  simp only []
  split_ifs with h1 h2
  · exact tryBuy_inv st day _ hc h
  · exact trySell_inv st day _ h
  · exact h

theorem foldl_simStep_inv (decide : MarketConditions → PortfolioState → TradeDecision)
    (l : List DailyData) (st : SimState)
    (hc : ∀ day ∈ l, 0 < day.close) (h : SimInv st) :
    SimInv (l.foldl (simStep decide) st) := by
  induction l generalizing st with
  | nil => simpa using h
  | cons dd t ih =>
    simp only [List.foldl_cons]
    exact ih (simStep decide st dd) (fun day hd => hc day (List.mem_cons_of_mem _ hd))
      (simStep_inv decide st dd (hc dd (List.mem_cons_self _ _)) h)

theorem liveSell_step_nonneg (s : LiveStrategy) (regime : MarketRegime)
    (price : ℚ) (pos : LivePosition) (h1 : 0 ≤ pos.totalAmount)
    (h4 : (if regime = .extreme_greed then s.sellPercentage * (15 / 10)
      else s.sellPercentage) ≤ 100) :
    0 ≤ (liveExecuteSellUpdate pos (liveSellSize s regime pos)
      (liveSellSize s regime pos * price)
      (liveSellSize s regime pos * price * feeRate)).1.totalAmount ∧
    0 ≤ (liveExecuteSellUpdate pos (liveSellSize s regime pos)
      (liveSellSize s regime pos * price)
      (liveSellSize s regime pos * price * feeRate)).1.totalCostUsdt := by
  constructor
  · dsimp only [liveExecuteSellUpdate, liveSellSize]
    set pct := (if regime = .extreme_greed then s.sellPercentage * (15 / 10)
      else s.sellPercentage) with hpct
    have hfrac : pct / 100 ≤ 1 := by
      rw [div_le_one (by norm_num : (0:ℚ) < 100)]
      exact h4
    have hmul : pos.totalAmount * (pct / 100) ≤ pos.totalAmount * 1 :=
      mul_le_mul_of_nonneg_left hfrac h1
    rw [mul_one] at hmul
    linarith
  · exact le_max_left _ _

/-- C9 counterexample: in the live trading path, a strategy with
`sellPercentage = 80` and `minProfitToSell = 0` in an extreme-greed
regime sells 1.2 units of a 1-unit position (the ×1.5 boost takes the
effective percentage to 120%), leaving a negative ledger amount −1/5,
so the invariant "a sell never removes more asset than the amount
currently held" fails on the live path. -/
theorem C9_counterexample :
    (handleDistributionStep ⟨80, 0⟩ .extreme_greed 200
      ⟨1, 100, 100, 0, 1, 0, .opened⟩).totalAmount = -(1/5) ∧
    (-(1/5) : ℚ) < 0 := by
  constructor
  · norm_num [handleDistributionStep, liveSellSize, liveExecuteSellUpdate, feeRate]
  · norm_num

/-- C9. AMENDED: in the backtest path the ledger invariants hold after
every operation for every decision sequence over positive closes:
amount ≥ 0 and costBasis ≥ 0 (sells are capped at the held amount).  In
the live path they hold provided the effective sell percentage
(including the ×1.5 extreme-greed boost) does not exceed 100: the new
amount stays ≥ 0, and costBasis stays ≥ 0 (it is clamped at 0). -/
theorem C9_ledger_invariants :
    (∀ (days : List DailyData) (cap : ℚ)
        (decide : MarketConditions → PortfolioState → TradeDecision),
      (∀ day ∈ days, 0 < day.close) →
      0 ≤ ((days.foldl (simStep decide) (initSimState cap)).pos).amount ∧
      0 ≤ ((days.foldl (simStep decide) (initSimState cap)).pos).costBasis) ∧
    (∀ (s : LiveStrategy) (regime : MarketRegime) (price : ℚ) (pos : LivePosition),
      0 ≤ pos.totalAmount → 0 ≤ pos.totalCostUsdt → 0 ≤ s.sellPercentage →
      (if regime = .extreme_greed then s.sellPercentage * (15 / 10)
        else s.sellPercentage) ≤ 100 →
      0 ≤ (handleDistributionStep s regime price pos).totalAmount ∧
      0 ≤ (handleDistributionStep s regime price pos).totalCostUsdt) := by
  constructor
  · intro days cap decide hc
    have h := foldl_simStep_inv decide days (initSimState cap) hc
      ⟨le_rfl, le_rfl, le_rfl, by norm_num [initSimState]⟩
    exact ⟨h.1, h.2.1⟩
  · intro s regime price pos h1 h2 h3 h4
    unfold handleDistributionStep
    simp only []
    split_ifs <;>
      first
        | exact ⟨h1, h2⟩
        | exact liveSell_step_nonneg s regime price pos h1 h4

/-- C9 witness: the amended invariants at a one-bar backtest with a
hold strategy and at a live distribution with a 10% sell in extreme
greed. -/
theorem C9_ledger_invariants_witness :
    (0:ℚ) < scenarioCDay.close ∧
    0 ≤ ((([scenarioCDay]).foldl (simStep holdDecide) (initSimState 1000)).pos).amount ∧
    0 ≤ (handleDistributionStep ⟨10, 0⟩ .extreme_greed 100
      ⟨1, 50, 50, 0, 1, 0, .opened⟩).totalAmount := by
  have hb := (C9_ledger_invariants).1 [scenarioCDay] 1000 holdDecide
    (by
      intro day hd
      rw [List.mem_singleton] at hd
      rw [hd]
      norm_num [scenarioCDay])
  have hl := (C9_ledger_invariants).2 ⟨10, 0⟩ .extreme_greed 100
    ⟨1, 50, 50, 0, 1, 0, .opened⟩ (by norm_num) (by norm_num) (by norm_num)
    (by norm_num)
  exact ⟨by norm_num [scenarioCDay], hb.1, hl.1⟩
